import Mathlib

/-!
# Electricity: poles, devices and their links

Shallow embedding of `electricity.h` (classes `Pole`, `Object`, `Switch`,
`Light`, `Generator`) and of the demo driver `electricity.cpp`.

Memory model.  The caller owns the devices; a `World` is the list of live
devices and an `Object*` is the position of a device in that list.  A `Pole*`
returned by `getPole` points at a member field of a device; it is modelled by
the tag of that field (`Field`), with `none` for `nullptr`.  Dereferencing a
null pointer, or using a device that does not exist, makes the whole operation
undefined: the operation returns `none`.  The pole names of `connect` are
`const std::string&` parameters: a `StrRef` says what the reference is bound
to, and the string is read through it at each use, so that a name bound to a
`connectedObjectPole` member follows the writes of the call.
-/

namespace Electricity

/-- Value of an `Object*`: the position of the device in the `World`. -/
abbrev ObjPtr := Nat

/-- `struct Pole`: a named pole, the device connected to it (`none` is
`nullptr`) and the name of the pole of that device it is connected to. -/
structure Pole where
  name : String
  connectedObject : Option ObjPtr
  connectedObjectPole : String
deriving DecidableEq, Repr

/-- Constructor `Pole(const std::string& name_)`: `connectedObject(nullptr)`,
`connectedObjectPole` default-constructed (empty). -/
def Pole.ctor (name_ : String) : Pole :=
  { name := name_, connectedObject := none, connectedObjectPole := "" }

/-- Target of a non-null `Pole*` inside a device: which pole member it points at
(`a1`/`l1`, `a2`/`l2`, `a3`). -/
inductive Field where
  | first
  | second
  | third
deriving DecidableEq, Repr

/-- `class Switch`: two poles `a1`, `a2` (`name` is `Object::name`). -/
structure Switch where
  name : String
  a1 : Pole
  a2 : Pole
deriving DecidableEq, Repr

/-- `class Light`: two poles `l1`, `l2`. -/
structure Light where
  name : String
  l1 : Pole
  l2 : Pole
deriving DecidableEq, Repr

/-- `class Generator`: three poles `a1`, `a2`, `a3`. -/
structure Generator where
  name : String
  a1 : Pole
  a2 : Pole
  a3 : Pole
deriving DecidableEq, Repr

/-- Constructor `Switch(name = " ")`: `a1("A1"), a2("A2")`. -/
def Switch.ctor (name : String) : Switch :=
  { name := name, a1 := Pole.ctor "A1", a2 := Pole.ctor "A2" }

/-- Constructor `Light(name = " ")`: `l1("A1"), l2("A2")`. -/
def Light.ctor (name : String) : Light :=
  { name := name, l1 := Pole.ctor "A1", l2 := Pole.ctor "A2" }

/-- Constructor `Generator(name = " ")`: `a1("A1"), a2("A2"), a3("A3")`. -/
def Generator.ctor (name : String) : Generator :=
  { name := name, a1 := Pole.ctor "A1", a2 := Pole.ctor "A2", a3 := Pole.ctor "A3" }

/-- `Switch::getPoleCount`. -/
def Switch.getPoleCount (_s : Switch) : Nat := 2

/-- `Switch::getPole(const std::string&)`. -/
def Switch.getPole (s : Switch) (name : String) : Option Field :=
  if name = s.a1.name then some Field.first
  else if name = s.a2.name then some Field.second
  else none

/-- `Switch::getPole(size_t)`. -/
def Switch.getPoleIdx (_s : Switch) (idx : Nat) : Option Field :=
  if idx = 1 then some Field.first
  else if idx = 2 then some Field.second
  else none

/-- `Light::getPoleCount`. -/
def Light.getPoleCount (_l : Light) : Nat := 2

/-- `Light::getPole(const std::string&)`. -/
def Light.getPole (l : Light) (name : String) : Option Field :=
  if name = l.l1.name then some Field.first
  else if name = l.l2.name then some Field.second
  else none

/-- `Light::getPole(size_t)`. -/
def Light.getPoleIdx (_l : Light) (idx : Nat) : Option Field :=
  if idx = 1 then some Field.first
  else if idx = 2 then some Field.second
  else none

/-- `Generator::getPoleCount`. -/
def Generator.getPoleCount (_g : Generator) : Nat := 3

/-- `Generator::getPole(const std::string&)`. -/
def Generator.getPole (g : Generator) (name : String) : Option Field :=
  if name = g.a1.name then some Field.first
  else if name = g.a2.name then some Field.second
  else if name = g.a3.name then some Field.third
  else none

/-- `Generator::getPole(size_t)`. -/
def Generator.getPoleIdx (_g : Generator) (idx : Nat) : Option Field :=
  if idx = 1 then some Field.first
  else if idx = 2 then some Field.second
  else if idx = 3 then some Field.third
  else none

/-- A device: one of the three concrete classes derived from `Object`. -/
inductive Object where
  | switch (s : Switch)
  | light (l : Light)
  | generator (g : Generator)
deriving DecidableEq, Repr

/-- Virtual `Object::getPoleCount`. -/
def Object.getPoleCount : Object → Nat
  | .switch s => s.getPoleCount
  | .light l => l.getPoleCount
  | .generator g => g.getPoleCount

/-- Virtual `Object::getPole(const std::string&)`. -/
def Object.getPole : Object → String → Option Field
  | .switch s, name => s.getPole name
  | .light l, name => l.getPole name
  | .generator g, name => g.getPole name

/-- Virtual `Object::getPole(size_t)`. -/
def Object.getPoleIdx : Object → Nat → Option Field
  | .switch s, idx => s.getPoleIdx idx
  | .light l, idx => l.getPoleIdx idx
  | .generator g, idx => g.getPoleIdx idx

/-- Read the pole member a `Pole*` points at (`none`: the class has no such
member). -/
def Object.load : Object → Field → Option Pole
  | .switch s, .first => some s.a1
  | .switch s, .second => some s.a2
  | .switch _, .third => none
  | .light l, .first => some l.l1
  | .light l, .second => some l.l2
  | .light _, .third => none
  | .generator g, .first => some g.a1
  | .generator g, .second => some g.a2
  | .generator g, .third => some g.a3

/-- Overwrite the pole member a `Pole*` points at. -/
def Object.store : Object → Field → Pole → Option Object
  | .switch s, .first, p => some (.switch { s with a1 := p })
  | .switch s, .second, p => some (.switch { s with a2 := p })
  | .switch _, .third, _ => none
  | .light l, .first, p => some (.light { l with l1 := p })
  | .light l, .second, p => some (.light { l with l2 := p })
  | .light _, .third, _ => none
  | .generator g, .first, p => some (.generator { g with a1 := p })
  | .generator g, .second, p => some (.generator { g with a2 := p })
  | .generator g, .third, p => some (.generator { g with a3 := p })

/-- The live devices; an `ObjPtr` is a position in this list. -/
abbrev World := List Object

/-- The call `obj.getPole(name)` on the device at address `this`. -/
def World.getPole (w : World) (this : ObjPtr) (name : String) : Option Field :=
  (w[this]?).bind (fun o => o.getPole name)

/-- The call `obj.getPole(idx)` on the device at address `this`. -/
def World.getPoleIdx (w : World) (this : ObjPtr) (idx : Nat) : Option Field :=
  (w[this]?).bind (fun o => o.getPoleIdx idx)

/-- The call `obj.getPoleCount()` on the device at address `this`. -/
def World.getPoleCount (w : World) (this : ObjPtr) : Option Nat :=
  (w[this]?).map (fun o => o.getPoleCount)

/-- Dereference `ptr->...` for reading, `ptr` a `Pole*` into the device at
`this`; `none` when `ptr` is null. -/
def World.deref (w : World) (this : ObjPtr) (ptr : Option Field) : Option Pole := do
  let f ← ptr
  let o ← w[this]?
  o.load f

/-- Assignment through a pole pointer, `ptr->member = value`, written as the
update `upd` of the pole; `none` when `ptr` is null. -/
def World.assign (w : World) (this : ObjPtr) (ptr : Option Field) (upd : Pole → Pole) :
    Option World := do
  let f ← ptr
  let o ← w[this]?
  let x ← o.load f
  let o' ← o.store f (upd x)
  pure (w.set this o')

/-- Value of a `const std::string&` argument: what the reference is bound to.
Either a string held by the caller and stored in no pole (a literal, a
temporary, a local variable, a device name), or the `name` member of a pole, or
the `connectedObjectPole` member of a pole.  The operations never write a
`name`; they do write `connectedObjectPole`, so a reference bound to one may
read differently later in the same call. -/
inductive StrRef where
  | val (s : String)
  | name (o : ObjPtr) (f : Field)
  | linked (o : ObjPtr) (f : Field)
deriving DecidableEq, Repr

/-- A `String` passed where a reference is expected is a string held by the
caller, as the literals of the demo are. -/
instance StrRef.ofString : Coe String StrRef := ⟨StrRef.val⟩

/-- Read a string through a reference in the current world; `none` when the
reference is bound to a pole that does not exist. -/
def World.read (w : World) : StrRef → Option String
  | .val s => some s
  | .name o f => (w.deref o (some f)).map (fun x => x.name)
  | .linked o f => (w.deref o (some f)).map (fun x => x.connectedObjectPole)

/-- `Object::connect(poleName, other, otherPoleName)` called on the device at
`this`: the returned flag and the world after the call.  Both names are passed
by reference, as in the source, and are read again at each use: line 119
(`p1->connectedObjectPole = otherPoleName`) is executed before line 120 reads
`poleName`. -/
def connect (w : World) (this : ObjPtr) (poleName : StrRef) (other : ObjPtr)
    (otherPoleName : StrRef) : Option (Bool × World) := do
  let n ← w.read poleName
  let m ← w.read otherPoleName
  if n ≠ m then
    let p1 := w.getPole this n
    let p2 := w.getPole other m
    let w1 ← w.assign this p1 (fun p => { p with connectedObject := some other })
    let m1 ← w1.read otherPoleName
    let w2 ← w1.assign this p1 (fun p => { p with connectedObjectPole := m1 })
    let n2 ← w2.read poleName
    let w3 ← w2.assign other p2 (fun p => { p with connectedObjectPole := n2 })
    let w4 ← w3.assign other p2 (fun p => { p with connectedObject := some this })
    pure (true, w4)
  else
    pure (false, w)

/-- `Object::disconnect(poleName)` called on the device at `this`.  The pole
named by `p->connectedObjectPole` is looked up with `getPole` of the current
device, as in the source.  The reference `poleName` is read only on lines 127
and 129, before the first write, so the string read at entry stands for it. -/
def disconnect (w : World) (this : ObjPtr) (poleName : String) : Option (Bool × World) := do
  let c ← w.deref this (w.getPole this poleName)
  if c.connectedObject ≠ none then
    let p := w.getPole this poleName
    let p0 ← w.deref this p
    let w1 ← w.assign this (w.getPole this p0.connectedObjectPole)
      (fun q => { q with connectedObject := none })
    let p1 ← w1.deref this p
    let w2 ← w1.assign this (w1.getPole this p1.connectedObjectPole)
      (fun q => { q with connectedObjectPole := "" })
    let w3 ← w2.assign this p (fun q => { q with connectedObject := none })
    let w4 ← w3.assign this p (fun q => { q with connectedObjectPole := "" })
    pure (true, w4)
  else
    pure (false, w)

/-- Inner loop of `Object::isConnectedTo`: `j` runs over `js`, `i` is fixed. -/
def isConnectedTo.inner (w : World) (this other : ObjPtr) (i : Nat) : List Nat → Option Bool
  | [] => some false
  | j :: js => do
    let x ← w.deref this (w.getPoleIdx this i)
    let y ← w.deref other (w.getPoleIdx other j)
    if x.connectedObjectPole = y.name ∧ x.connectedObject = some other then
      pure true
    else
      isConnectedTo.inner w this other i js

/-- Outer loop of `Object::isConnectedTo`: `i` runs over the given indices; for
each, `j` runs over `1 .. other.getPoleCount()`. -/
def isConnectedTo.outer (w : World) (this other : ObjPtr) : List Nat → Option Bool
  | [] => some false
  | i :: rest => do
    let m ← w.getPoleCount other
    let found ← isConnectedTo.inner w this other i (List.range' 1 m)
    if found then pure true else isConnectedTo.outer w this other rest

/-- `Object::isConnectedTo(other)` called on the device at `this`. -/
def isConnectedTo (w : World) (this other : ObjPtr) : Option Bool := do
  let n ← w.getPoleCount this
  isConnectedTo.outer w this other (List.range' 1 n)

/-- World of the first part of `main`: `Switch sw, sw2;` at addresses 0, 1. -/
def demoSwitches : World :=
  [Object.switch (Switch.ctor " "), Object.switch (Switch.ctor " ")]

/-- World of the second part of `main`: `Switch sw1; Light lamp; Generator generator;`
at addresses 0, 1, 2. -/
def demoChain : World :=
  [Object.switch (Switch.ctor " "), Object.light (Light.ctor " "),
   Object.generator (Generator.ctor " ")]

/-- The pole at the 1-based index `idx` of a device: `getPole(idx)` dereferenced. -/
def Object.poleAt (o : Object) (idx : Nat) : Option Pole :=
  (o.getPoleIdx idx).bind o.load

/-- Direct link from device `a` to device `b`, in the words of the
specification of `isConnectedTo`: some pole of `a`, at an index in
`1 .. a.getPoleCount()`, has `b` as its connected device and, as its connected
pole name, the name of some pole of `b` at an index in `1 .. b.getPoleCount()`. -/
def DirectLink (w : World) (a b : ObjPtr) : Prop :=
  ∃ n m i j x y, w.getPoleCount a = some n ∧ w.getPoleCount b = some m ∧
    1 ≤ i ∧ i ≤ n ∧ 1 ≤ j ∧ j ≤ m ∧
    w.deref a (w.getPoleIdx a i) = some x ∧ w.deref b (w.getPoleIdx b j) = some y ∧
    x.connectedObject = some b ∧ x.connectedObjectPole = y.name

/-- A call of one of the three public operations of `Object`. -/
inductive Call where
  | connect (this : ObjPtr) (poleName : String) (other : ObjPtr) (otherPoleName : String)
  | disconnect (this : ObjPtr) (poleName : String)
  | isConnectedTo (this other : ObjPtr)
deriving DecidableEq, Repr

/-- Result and world after a call.  `isConnectedTo` is a `const` method: it
reads the world and hands it back as it was. -/
def Call.run (w : World) : Call → Option (Bool × World)
  | .connect this poleName other otherPoleName =>
    Electricity.connect w this poleName other otherPoleName
  | .disconnect this poleName => Electricity.disconnect w this poleName
  | .isConnectedTo this other => (Electricity.isConnectedTo w this other).map (fun r => (r, w))

/-- A device as its constructor leaves it: poles named "A1", "A2" (and "A3"),
nothing connected (the display name is free). -/
def Object.IsFresh : Object → Prop
  | .switch s => s = Switch.ctor s.name
  | .light l => l = Light.ctor l.name
  | .generator g => g = Generator.ctor g.name

instance Object.decIsFresh : (o : Object) → Decidable o.IsFresh
  | .switch s => inferInstanceAs (Decidable (s = Switch.ctor s.name))
  | .light l => inferInstanceAs (Decidable (l = Light.ctor l.name))
  | .generator g => inferInstanceAs (Decidable (g = Generator.ctor g.name))

/-- The demo after `sw.connect("A2", sw2, "A1")`. -/
def demoSwitchesLinked : World :=
  [Object.switch ⟨" ", Pole.ctor "A1", ⟨"A2", some 1, "A1"⟩⟩,
   Object.switch ⟨" ", ⟨"A1", some 0, "A2"⟩, Pole.ctor "A2"⟩]

/-- The demo after `sw.connect("A2", sw2, "A1")` and `sw.disconnect("A2")`: the
pole `a1` of `sw2` still names `sw`. -/
def demoSwitchesHalfCut : World :=
  [Object.switch (Switch.ctor " "),
   Object.switch ⟨" ", ⟨"A1", some 0, "A2"⟩, Pole.ctor "A2"⟩]

/-- A fresh switch (address 0), light (1) and generator (2) after
`sw1.connect("A1", generator, "A3")`. -/
def demoChainPhase3 : World :=
  [Object.switch ⟨" ", ⟨"A1", some 2, "A3"⟩, Pole.ctor "A2"⟩,
   Object.light (Light.ctor " "),
   Object.generator ⟨" ", Pole.ctor "A1", Pole.ctor "A2", ⟨"A3", some 0, "A1"⟩⟩]

/-- A single fresh switch, at address 0. -/
def loneSwitch : World := [Object.switch (Switch.ctor " ")]

/-- The lone switch after `sw.connect("A1", sw, "A2")`. -/
def loneSwitchLooped : World :=
  [Object.switch ⟨" ", ⟨"A1", some 0, "A2"⟩, ⟨"A2", some 0, "A1"⟩⟩]

/-- States reachable from freshly constructed devices by completed `connect`
and `disconnect` calls whose pole names exist on their devices. -/
inductive Reachable : World → Prop where
  | fresh (w : World) (h : ∀ o ∈ w, o.IsFresh) : Reachable w
  | connect (w w' : World) (a b : ObjPtr) (p q : String) (r : Bool) (h : Reachable w)
      (hp : (w.getPole a p).isSome) (hq : (w.getPole b q).isSome)
      (hc : Electricity.connect w a p b q = some (r, w')) : Reachable w'
  | disconnect (w w' : World) (a : ObjPtr) (p : String) (r : Bool) (h : Reachable w)
      (hp : (w.getPole a p).isSome)
      (hc : Electricity.disconnect w a p = some (r, w')) : Reachable w'

/-- Pole invariant of the specification: for every pole of every device, the
connected device is null if and only if the connected pole name is empty. -/
def PoleInv (w : World) : Prop :=
  ∀ a f x, w.deref a (some f) = some x →
    (x.connectedObject = none ↔ x.connectedObjectPole = "")

/-- Every pole of every device has a non-empty name. -/
def NamesNonEmpty (w : World) : Prop :=
  ∀ a f x, w.deref a (some f) = some x → x.name ≠ ""

/-- Link symmetry of the specification: whenever a pole `x` of a device `d`
holds `(e, y)`, the device `e` has a pole named `y` and that pole holds
`(d, name of x)`. -/
def LinkSymmetric (w : World) : Prop :=
  ∀ d f x e, w.deref d (some f) = some x → x.connectedObject = some e →
    ∃ y, w.deref e (w.getPole e x.connectedObjectPole) = some y ∧
      y.connectedObject = some d ∧ y.connectedObjectPole = x.name

/-- The second part of the demo after its three `connect` calls
(`generator.connect("A1", sw1, "A2")`, `sw1.connect("A1", lamp, "A2")`, and
`lamp.connect("A2", generator, "A2")`, which fails on the equal names). -/
def demoChainWired : World :=
  [Object.switch ⟨" ", ⟨"A1", some 1, "A2"⟩, ⟨"A2", some 2, "A1"⟩⟩,
   Object.light ⟨" ", Pole.ctor "A1", ⟨"A2", some 0, "A1"⟩⟩,
   Object.generator ⟨" ", ⟨"A1", some 0, "A2"⟩, Pole.ctor "A2", Pole.ctor "A3"⟩]

/-- The demo after `generator.disconnect("A1")`: the generator is cleared,
`sw1` still names it. -/
def demoChainCut : World :=
  [Object.switch ⟨" ", ⟨"A1", some 1, "A2"⟩, ⟨"A2", some 2, "A1"⟩⟩,
   Object.light ⟨" ", Pole.ctor "A1", ⟨"A2", some 0, "A1"⟩⟩,
   Object.generator (Generator.ctor " ")]

/-- Fresh switch, light and generator after `generator.connect("A1", sw1, "A2")`
and `generator.connect("A2", lamp, "A1")`. -/
def demoStar : World :=
  [Object.switch ⟨" ", Pole.ctor "A1", ⟨"A2", some 2, "A1"⟩⟩,
   Object.light ⟨" ", ⟨"A1", some 2, "A2"⟩, Pole.ctor "A2"⟩,
   Object.generator ⟨" ", ⟨"A1", some 0, "A2"⟩, ⟨"A2", some 1, "A1"⟩, Pole.ctor "A3"⟩]

/-- The world `demoStar` after `generator.disconnect("A1")`: both poles "A1" and
"A2" of the generator are cleared. -/
def demoStarCut : World :=
  [Object.switch ⟨" ", Pole.ctor "A1", ⟨"A2", some 2, "A1"⟩⟩,
   Object.light ⟨" ", ⟨"A1", some 2, "A2"⟩, Pole.ctor "A2"⟩,
   Object.generator (Generator.ctor " ")]

/-- The world `demoChainWired` after `sw1.connect("A2", lamp, "A1")`: pole "A1" of
the generator still names `sw1`. -/
def demoChainRewired : World :=
  [Object.switch ⟨" ", ⟨"A1", some 1, "A2"⟩, ⟨"A2", some 1, "A1"⟩⟩,
   Object.light ⟨" ", ⟨"A1", some 0, "A2"⟩, ⟨"A2", some 0, "A1"⟩⟩,
   Object.generator ⟨" ", ⟨"A1", some 0, "A2"⟩, Pole.ctor "A2", Pole.ctor "A3"⟩]

/-- A call of `connect` with two strings held by the caller: no write of the
call changes what the names read. -/
theorem connect_val (w : World) (a b : ObjPtr) (p q : String) :
    connect w a (StrRef.val p) b (StrRef.val q) =
      if p ≠ q then do
        let p1 := w.getPole a p
        let p2 := w.getPole b q
        let w1 ← w.assign a p1 (fun x => { x with connectedObject := some b })
        let w2 ← w1.assign a p1 (fun x => { x with connectedObjectPole := q })
        let w3 ← w2.assign b p2 (fun x => { x with connectedObjectPole := p })
        let w4 ← w3.assign b p2 (fun x => { x with connectedObject := some a })
        pure (true, w4)
      else
        pure (false, w) := rfl

theorem Object.store_of_load {o : Object} {f : Field} {x : Pole} (p : Pole)
    (h : o.load f = some x) :
    ∃ o', o.store f p = some o' ∧
      (∀ g, o'.load g = if g = f then some p else o.load g) ∧
      o'.getPoleCount = o.getPoleCount ∧
      (∀ i, o'.getPoleIdx i = o.getPoleIdx i) ∧
      (p.name = x.name → ∀ n, o'.getPole n = o.getPole n) := by
  cases o <;> cases f <;> simp [Object.load] at h <;> subst h <;>
    refine ⟨_, rfl, ?_, rfl, fun _ => rfl, ?_⟩
  all_goals first
    | (intro g; cases g <;> simp [Object.load])
    | (intro hn n; simp [Object.getPole, Switch.getPole, Light.getPole, Generator.getPole, hn])

theorem Object.getPole_load {o : Object} {n : String} {f : Field} (h : o.getPole n = some f) :
    ∃ x, o.load f = some x ∧ x.name = n := by
  cases o <;> simp only [Object.getPole, Switch.getPole, Light.getPole, Generator.getPole] at h <;>
    split_ifs at h <;> simp at h <;> subst h <;> simp [Object.load, *]

theorem Object.getPoleIdx_load {o : Object} {i : Nat} {f : Field} (h : o.getPoleIdx i = some f) :
    ∃ x, o.load f = some x := by
  cases o <;> simp only [Object.getPoleIdx, Switch.getPoleIdx, Light.getPoleIdx, Generator.getPoleIdx] at h <;>
    split_ifs at h <;> simp at h <;> subst h <;> simp [Object.load]

theorem Object.getPoleIdx_isSome (o : Object) (i : Nat) :
    (∃ f, o.getPoleIdx i = some f) ↔ 1 ≤ i ∧ i ≤ o.getPoleCount := by
  cases o <;> simp only [Object.getPoleIdx, Switch.getPoleIdx, Light.getPoleIdx, Generator.getPoleIdx,
    Object.getPoleCount, Switch.getPoleCount, Light.getPoleCount, Generator.getPoleCount] <;>
    split_ifs <;> simp <;> omega

theorem Object.load_getPoleIdx {o : Object} {f : Field} {x : Pole} (h : o.load f = some x) :
    ∃ i, 1 ≤ i ∧ i ≤ o.getPoleCount ∧ o.getPoleIdx i = some f := by
  cases o <;> cases f <;> simp [Object.load] at h
  all_goals first
    | exact ⟨1, Nat.le_refl 1, Nat.le_of_ble_eq_true rfl, rfl⟩
    | exact ⟨2, Nat.le_of_ble_eq_true rfl, Nat.le_of_ble_eq_true rfl, rfl⟩
    | exact ⟨3, Nat.le_of_ble_eq_true rfl, Nat.le_of_ble_eq_true rfl, rfl⟩

theorem World.deref_some_iff {w : World} {a : ObjPtr} {f : Field} {x : Pole} :
    w.deref a (some f) = some x ↔ ∃ o, w[a]? = some o ∧ o.load f = some x := by
  simp [World.deref, Option.bind_eq_some]

theorem World.getElem?_set_self {w : World} {a : ObjPtr} {o o' : Object} (h : w[a]? = some o) :
    (w.set a o')[a]? = some o' := by
  have hlt : a < w.length := by
    rcases Nat.lt_or_ge a w.length with hlt | hge
    · exact hlt
    · rw [List.getElem?_eq_none hge] at h; cases h
  simp [List.getElem?_set, hlt]

theorem World.assign_spec {w : World} {a : ObjPtr} {f : Field} {x : Pole} (upd : Pole → Pole)
    (h : w.deref a (some f) = some x) :
    ∃ w', w.assign a (some f) upd = some w' ∧
      (∀ c g, w'.deref c (some g) = if c = a ∧ g = f then some (upd x) else w.deref c (some g)) ∧
      (∀ c, w'.getPoleCount c = w.getPoleCount c) ∧
      (∀ c i, w'.getPoleIdx c i = w.getPoleIdx c i) ∧
      ((upd x).name = x.name → ∀ c n, w'.getPole c n = w.getPole c n) ∧
      w'.length = w.length := by
  obtain ⟨o, ho, hl⟩ := World.deref_some_iff.mp h
  obtain ⟨o', hs, hload, hcnt, hidx, hname⟩ := Object.store_of_load (upd x) hl
  have hself : (w.set a o')[a]? = some o' := World.getElem?_set_self ho
  have hother : ∀ c, c ≠ a → (w.set a o')[c]? = w[c]? := by
    intro c hc
    simp [List.getElem?_set, Ne.symm hc]
  refine ⟨w.set a o', ?_, ?_, ?_, ?_, ?_, ?_⟩
  · simp [World.assign, ho, hl, hs]
  · intro c g
    by_cases hc : c = a
    · subst hc
      simp only [World.deref, Option.bind_eq_bind, Option.some_bind, hself, ho, hload, true_and]
    · simp only [World.deref, Option.bind_eq_bind, Option.some_bind, hother c hc, hc, false_and, if_false]
  · intro c
    by_cases hc : c = a
    · subst hc; simp [World.getPoleCount, hself, ho, hcnt]
    · simp [World.getPoleCount, hother c hc]
  · intro c i
    by_cases hc : c = a
    · subst hc; simp [World.getPoleIdx, hself, ho, hidx]
    · simp [World.getPoleIdx, hother c hc]
  · intro hn c n
    by_cases hc : c = a
    · subst hc; simp [World.getPole, hself, ho, hname hn]
    · simp [World.getPole, hother c hc]
  · simp

theorem World.getPole_deref {w : World} {a : ObjPtr} {n : String} {f : Field}
    (h : w.getPole a n = some f) : ∃ x, w.deref a (some f) = some x ∧ x.name = n := by
  simp only [World.getPole, Option.bind_eq_some] at h
  obtain ⟨o, ho, hf⟩ := h
  obtain ⟨x, hx, hn⟩ := Object.getPole_load hf
  exact ⟨x, World.deref_some_iff.mpr ⟨o, ho, hx⟩, hn⟩

theorem connect_spec {w : World} {a b : ObjPtr} {p q : String} {f1 f2 : Field}
    (hne : p ≠ q) (h1 : w.getPole a p = some f1) (h2 : w.getPole b q = some f2) :
    ∃ x y w', w.deref a (some f1) = some x ∧ w.deref b (some f2) = some y ∧
      x.name = p ∧ y.name = q ∧
      connect w a p b q = some (true, w') ∧
      (∀ c g, w'.deref c (some g) =
        if c = b ∧ g = f2 then
          some { y with connectedObject := some a, connectedObjectPole := p }
        else if c = a ∧ g = f1 then
          some { x with connectedObject := some b, connectedObjectPole := q }
        else w.deref c (some g)) ∧
      (∀ c, w'.getPoleCount c = w.getPoleCount c) ∧
      (∀ c i, w'.getPoleIdx c i = w.getPoleIdx c i) ∧
      (∀ c n, w'.getPole c n = w.getPole c n) ∧
      w'.length = w.length := by
  obtain ⟨x, hx, hxn⟩ := World.getPole_deref h1
  obtain ⟨y, hy, hyn⟩ := World.getPole_deref h2
  have hdiff : ¬ (b = a ∧ f2 = f1) := by
    rintro ⟨rfl, rfl⟩
    rw [hx] at hy
    cases hy
    exact hne (hxn.symm.trans hyn)
  obtain ⟨w1, e1, d1, c1, i1, n1, l1⟩ :=
    World.assign_spec (fun p => { p with connectedObject := some b }) hx
  have hx1 : w1.deref a (some f1) = some { x with connectedObject := some b } := by
    rw [d1]; simp
  obtain ⟨w2, e2, d2, c2, i2, n2, l2⟩ :=
    World.assign_spec (fun p => { p with connectedObjectPole := q }) hx1
  have hy2 : w2.deref b (some f2) = some y := by
    rw [d2, if_neg hdiff, d1, if_neg hdiff, hy]
  obtain ⟨w3, e3, d3, c3, i3, n3, l3⟩ :=
    World.assign_spec (fun r => { r with connectedObjectPole := p }) hy2
  have hy3 : w3.deref b (some f2) = some { y with connectedObjectPole := p } := by
    rw [d3]; simp
  obtain ⟨w4, e4, d4, c4, i4, n4, l4⟩ :=
    World.assign_spec (fun r => { r with connectedObject := some a }) hy3
  refine ⟨x, y, w4, hx, hy, hxn, hyn, ?_, ?_, ?_, ?_, ?_, ?_⟩
  · simp [connect_val, hne, h1, h2, e1, e2, e3, e4]
  · intro c g
    rw [d4]
    by_cases hb : c = b ∧ g = f2
    · simp [hb]
    · rw [if_neg hb, if_neg hb, d3, if_neg hb, d2]
      by_cases ha : c = a ∧ g = f1
      · simp [ha]
      · rw [if_neg ha, if_neg ha, d1, if_neg ha]
  · intro c; rw [c4, c3, c2, c1]
  · intro c i; rw [i4, i3, i2, i1]
  · intro c n; rw [n4 rfl, n3 rfl, n2 rfl, n1 rfl]
  · rw [l4, l3, l2, l1]

theorem World.deref_getPoleIdx {w : World} {a : ObjPtr} {o : Object} {i : Nat}
    (ho : w[a]? = some o) (h1 : 1 ≤ i) (h2 : i ≤ o.getPoleCount) :
    ∃ x, w.deref a (w.getPoleIdx a i) = some x := by
  obtain ⟨f, hf⟩ := (Object.getPoleIdx_isSome o i).mpr ⟨h1, h2⟩
  obtain ⟨x, hx⟩ := Object.getPoleIdx_load hf
  refine ⟨x, ?_⟩
  have : w.getPoleIdx a i = some f := by simp [World.getPoleIdx, ho, hf]
  rw [this]
  exact World.deref_some_iff.mpr ⟨o, ho, hx⟩

theorem isConnectedTo.inner_spec {w : World} {a b : ObjPtr} {i : Nat} {x : Pole}
    (hx : w.deref a (w.getPoleIdx a i) = some x) (js : List Nat)
    (hjs : ∀ j ∈ js, ∃ y, w.deref b (w.getPoleIdx b j) = some y) :
    ∃ r, isConnectedTo.inner w a b i js = some r ∧
      (r = true ↔ ∃ j ∈ js, ∃ y, w.deref b (w.getPoleIdx b j) = some y ∧
        x.connectedObject = some b ∧ x.connectedObjectPole = y.name) := by
  induction js with
  | nil => exact ⟨false, rfl, by simp⟩
  | cons j js ih =>
    obtain ⟨y, hy⟩ := hjs j (List.mem_cons_self j js)
    obtain ⟨r, hr, hiff⟩ := ih (fun k hk => hjs k (List.mem_cons_of_mem j hk))
    by_cases hc : x.connectedObjectPole = y.name ∧ x.connectedObject = some b
    · refine ⟨true, ?_, ?_⟩
      · simp [isConnectedTo.inner, hx, hy, hc]
      · simp only [true_iff]
        exact ⟨j, List.mem_cons_self j js, y, hy, hc.2, hc.1⟩
    · refine ⟨r, ?_, ?_⟩
      · simp only [isConnectedTo.inner, hx, hy, Option.bind_eq_bind, Option.some_bind, if_neg hc, hr]
      · rw [hiff]
        constructor
        · rintro ⟨k, hk, z, hz, h⟩
          exact ⟨k, List.mem_cons_of_mem j hk, z, hz, h⟩
        · rintro ⟨k, hk, z, hz, h⟩
          rcases List.mem_cons.mp hk with rfl | hk
          · rw [hy] at hz
            cases hz
            exact absurd ⟨h.2, h.1⟩ hc
          · exact ⟨k, hk, z, hz, h⟩

theorem isConnectedTo.outer_spec {w : World} {a b : ObjPtr} {m : Nat}
    (hm : w.getPoleCount b = some m)
    (hjs : ∀ j ∈ List.range' 1 m, ∃ y, w.deref b (w.getPoleIdx b j) = some y)
    (l : List Nat) (hl : ∀ i ∈ l, ∃ x, w.deref a (w.getPoleIdx a i) = some x) :
    ∃ r, isConnectedTo.outer w a b l = some r ∧
      (r = true ↔ ∃ i ∈ l, ∃ j ∈ List.range' 1 m, ∃ x y,
        w.deref a (w.getPoleIdx a i) = some x ∧ w.deref b (w.getPoleIdx b j) = some y ∧
        x.connectedObject = some b ∧ x.connectedObjectPole = y.name) := by
  induction l with
  | nil => exact ⟨false, rfl, by simp⟩
  | cons i l ih =>
    obtain ⟨x, hx⟩ := hl i (List.mem_cons_self i l)
    obtain ⟨r, hr, hiff⟩ := ih (fun k hk => hl k (List.mem_cons_of_mem i hk))
    obtain ⟨t, ht, htiff⟩ := isConnectedTo.inner_spec hx (List.range' 1 m) hjs
    cases t with
    | true =>
      refine ⟨true, ?_, ?_⟩
      · simp [isConnectedTo.outer, hm, ht]
      · simp only [true_iff]
        obtain ⟨j, hj, y, hy, h⟩ := htiff.mp rfl
        exact ⟨i, List.mem_cons_self i l, j, hj, x, y, hx, hy, h⟩
    | false =>
      refine ⟨r, ?_, ?_⟩
      · simp [isConnectedTo.outer, hm, ht, hr]
      · rw [hiff]
        constructor
        · rintro ⟨k, hk, rest⟩
          exact ⟨k, List.mem_cons_of_mem i hk, rest⟩
        · rintro ⟨k, hk, j, hj, x', y, hx', hy, h⟩
          rcases List.mem_cons.mp hk with rfl | hk
          · rw [hx] at hx'
            cases hx'
            have : false = true := htiff.mpr ⟨j, hj, y, hy, h⟩
            cases this
          · exact ⟨k, hk, j, hj, x', y, hx', hy, h⟩

theorem World.getElem?_of_lt {w : World} {a : ObjPtr} (ha : a < w.length) :
    ∃ o, w[a]? = some o := ⟨w[a], List.getElem?_eq_getElem ha⟩

theorem World.mem_indices {n k : Nat} : k ∈ List.range' 1 n ↔ 1 ≤ k ∧ k ≤ n := by
  rw [List.mem_range'_1]; omega

theorem isConnectedTo_spec {w : World} {a b : ObjPtr} (ha : a < w.length) (hb : b < w.length) :
    ∃ r, isConnectedTo w a b = some r ∧ (r = true ↔ DirectLink w a b) := by
  obtain ⟨oa, hoa⟩ := World.getElem?_of_lt ha
  obtain ⟨ob, hob⟩ := World.getElem?_of_lt hb
  have hn : w.getPoleCount a = some oa.getPoleCount := by simp [World.getPoleCount, hoa]
  have hm : w.getPoleCount b = some ob.getPoleCount := by simp [World.getPoleCount, hob]
  have hjs : ∀ j ∈ List.range' 1 ob.getPoleCount, ∃ y, w.deref b (w.getPoleIdx b j) = some y :=
    fun j hj => World.deref_getPoleIdx hob (World.mem_indices.mp hj).1 (World.mem_indices.mp hj).2
  have hl : ∀ i ∈ List.range' 1 oa.getPoleCount, ∃ x, w.deref a (w.getPoleIdx a i) = some x :=
    fun i hi => World.deref_getPoleIdx hoa (World.mem_indices.mp hi).1 (World.mem_indices.mp hi).2
  obtain ⟨r, hr, hiff⟩ := isConnectedTo.outer_spec hm hjs (List.range' 1 oa.getPoleCount) hl
  refine ⟨r, ?_, ?_⟩
  · simp [isConnectedTo, hn, hr]
  · rw [hiff]
    constructor
    · rintro ⟨i, hi, j, hj, x, y, hx, hy, h1, h2⟩
      exact ⟨_, _, i, j, x, y, hn, hm, (World.mem_indices.mp hi).1, (World.mem_indices.mp hi).2,
        (World.mem_indices.mp hj).1, (World.mem_indices.mp hj).2, hx, hy, h1, h2⟩
    · rintro ⟨n, m, i, j, x, y, hn', hm', hi1, hi2, hj1, hj2, hx, hy, h1, h2⟩
      rw [hn] at hn'
      rw [hm] at hm'
      cases hn'
      cases hm'
      exact ⟨i, World.mem_indices.mpr ⟨hi1, hi2⟩, j, World.mem_indices.mpr ⟨hj1, hj2⟩,
        x, y, hx, hy, h1, h2⟩

theorem World.deref_index {w : World} {a : ObjPtr} {f : Field} {x : Pole}
    (h : w.deref a (some f) = some x) :
    ∃ n i, w.getPoleCount a = some n ∧ 1 ≤ i ∧ i ≤ n ∧ w.getPoleIdx a i = some f ∧
      a < w.length := by
  obtain ⟨o, ho, hl⟩ := World.deref_some_iff.mp h
  obtain ⟨i, h1, h2, hi⟩ := Object.load_getPoleIdx hl
  refine ⟨o.getPoleCount, i, by simp [World.getPoleCount, ho], h1, h2,
    by simp [World.getPoleIdx, ho, hi], ?_⟩
  rcases Nat.lt_or_ge a w.length with hlt | hge
  · exact hlt
  · rw [List.getElem?_eq_none hge] at ho; cases ho

theorem connect_poles {w : World} {a b : ObjPtr} {p q : String} {f1 f2 : Field}
    (hne : p ≠ q) (h1 : w.getPole a p = some f1) (h2 : w.getPole b q = some f2) :
    ∃ x y w', w.deref a (some f1) = some x ∧ w.deref b (some f2) = some y ∧
      connect w a p b q = some (true, w') ∧
      w'.deref a (some f1) = some { name := p, connectedObject := some b, connectedObjectPole := q } ∧
      w'.deref b (some f2) = some { name := q, connectedObject := some a, connectedObjectPole := p } ∧
      (∀ c n, w'.getPole c n = w.getPole c n) ∧ w'.length = w.length := by
  obtain ⟨x, y, w', hx, hy, hxn, hyn, hc, hd, _, _, hn, hl⟩ := connect_spec hne h1 h2
  have hdiff : ¬ (a = b ∧ f1 = f2) := by
    rintro ⟨rfl, rfl⟩
    rw [hx] at hy
    cases hy
    exact hne (hxn.symm.trans hyn)
  refine ⟨x, y, w', hx, hy, hc, ?_, ?_, hn, hl⟩
  · rw [hd, if_neg hdiff]; simp [hxn]
  · rw [hd]; simp [hyn]

theorem Object.getPoleIdx_injective {o : Object} {i j : Nat} {f g : Field} (hij : i ≠ j)
    (hf : o.getPoleIdx i = some f) (hg : o.getPoleIdx j = some g) : f ≠ g := by
  cases o <;>
    simp only [Object.getPoleIdx, Switch.getPoleIdx, Light.getPoleIdx,
      Generator.getPoleIdx] at hf hg <;>
    split_ifs at hf hg <;> simp at hf hg <;> subst hf hg <;> first | decide | omega

theorem Object.getPole_least {o : Object} {n : String} {f : Field} (h : o.getPole n = some f) :
    ∃ i x, o.getPoleIdx i = some f ∧ o.load f = some x ∧ x.name = n ∧
      ∀ j, j < i → ∀ y, o.poleAt j = some y → y.name ≠ n := by
  cases o <;>
    simp only [Object.getPole, Switch.getPole, Light.getPole, Generator.getPole] at h <;>
    split_ifs at h with h1 h2 <;> simp at h <;> subst h
  all_goals first
    | (refine ⟨1, _, rfl, rfl, by simp [*], ?_⟩
       intro j hj y hy
       interval_cases j
       simp [Object.poleAt, Object.getPoleIdx, Switch.getPoleIdx, Light.getPoleIdx,
         Generator.getPoleIdx] at hy)
    | (refine ⟨2, _, rfl, rfl, by simp [*], ?_⟩
       intro j hj y hy
       interval_cases j <;>
       simp [Object.poleAt, Object.getPoleIdx, Switch.getPoleIdx, Light.getPoleIdx,
         Generator.getPoleIdx, Object.load] at hy
       subst hy
       exact fun e => h1 e.symm)
    | (refine ⟨3, _, rfl, rfl, by simp [*], ?_⟩
       intro j hj y hy
       interval_cases j <;>
       simp [Object.poleAt, Object.getPoleIdx, Switch.getPoleIdx, Light.getPoleIdx,
         Generator.getPoleIdx, Object.load] at hy <;> subst hy <;>
       first | exact fun e => h1 e.symm | exact fun e => h2 e.symm)

theorem Object.getPole_none_iff (o : Object) (n : String) :
    o.getPole n = none ↔ ∀ i y, o.poleAt i = some y → y.name ≠ n := by
  constructor
  · intro h i y hy hn
    simp only [Object.poleAt, Option.bind_eq_some] at hy
    obtain ⟨f, hf, hl⟩ := hy
    cases o <;> cases f <;>
      simp only [Object.getPole, Switch.getPole, Light.getPole, Generator.getPole] at h <;>
      split_ifs at h <;> simp [Object.load] at hl <;> subst hl <;> simp_all
  · intro h
    cases hg : o.getPole n with
    | none => rfl
    | some f =>
      obtain ⟨i, x, hi, hl, hn, _⟩ := Object.getPole_least hg
      exact absurd hn (h i x (by simp [Object.poleAt, hi, hl]))

theorem Object.fresh_poleAt {o : Object} (hf : o.IsFresh) {i : Nat} {x : Pole}
    (hx : o.poleAt i = some x) :
    x.name = "A" ++ toString i ∧ x.connectedObject = none ∧ x.connectedObjectPole = "" := by
  cases o <;> simp only [Object.IsFresh] at hf <;> rw [hf] at hx <;>
    simp only [Object.poleAt, Object.getPoleIdx, Switch.getPoleIdx, Light.getPoleIdx,
      Generator.getPoleIdx] at hx <;>
    split_ifs at hx <;>
    simp [Object.load, Switch.ctor, Light.ctor, Generator.ctor] at hx <;>
    subst hx <;> subst_vars <;> decide

theorem Object.fresh_getPole (o : Object) (n : String) :
    o.IsFresh → ((o.getPole n).isSome ↔
      match o with
      | .switch _ => n = "A1" ∨ n = "A2"
      | .light _ => n = "A1" ∨ n = "A2"
      | .generator _ => n = "A1" ∨ n = "A2" ∨ n = "A3") := by
  intro hf
  cases o <;> simp only [Object.IsFresh] at hf <;> rw [hf] <;>
    simp only [Object.getPole, Switch.getPole, Light.getPole, Generator.getPole,
      Switch.ctor, Light.ctor, Generator.ctor, Pole.ctor] <;>
    split_ifs <;> simp_all

theorem World.assign_getElem?_ne {w w' : World} {a : ObjPtr} {ptr : Option Field}
    {upd : Pole → Pole} (h : w.assign a ptr upd = some w') {c : ObjPtr} (hc : c ≠ a) :
    w'[c]? = w[c]? := by
  simp only [World.assign, Option.bind_eq_bind, Option.bind_eq_some, Option.pure_def,
    Option.some.injEq] at h
  obtain ⟨f, _, o, _, x, _, o', _, rfl⟩ := h
  simp [List.getElem?_set, Ne.symm hc]

theorem disconnect_spec {w : World} {a : ObjPtr} {p : String} {f g : Field} {x : Pole}
    (hf : w.getPole a p = some f) (hx : w.deref a (some f) = some x)
    (hl : x.connectedObject ≠ none) (hg : w.getPole a x.connectedObjectPole = some g) :
    ∃ y w', w.deref a (some g) = some y ∧ disconnect w a p = some (true, w') ∧
      (∀ c h, w'.deref c (some h) =
        if c = a ∧ h = f then
          some { x with connectedObject := none, connectedObjectPole := "" }
        else if c = a ∧ h = g then
          some { y with connectedObject := none, connectedObjectPole := "" }
        else w.deref c (some h)) ∧
      (∀ c, w'.getPoleCount c = w.getPoleCount c) ∧
      (∀ c i, w'.getPoleIdx c i = w.getPoleIdx c i) ∧
      (∀ c n, w'.getPole c n = w.getPole c n) ∧
      w'.length = w.length := by
  obtain ⟨y, hy, _⟩ := World.getPole_deref hg
  obtain ⟨w1, e1, d1, c1, i1, n1, l1⟩ :=
    World.assign_spec (fun q => { q with connectedObject := none }) hy
  have hx1 : ∃ x1, w1.deref a (some f) = some x1 ∧
      x1.connectedObjectPole = x.connectedObjectPole := by
    rw [d1]
    by_cases hfg : f = g
    · subst hfg
      rw [hx] at hy
      cases hy
      exact ⟨{ x with connectedObject := none }, by simp, rfl⟩
    · exact ⟨x, by simp [hfg, hx], rfl⟩
  obtain ⟨x1, hx1, hx1p⟩ := hx1
  have hy1 : w1.deref a (some g) = some { y with connectedObject := none } := by
    rw [d1]; simp
  obtain ⟨w2, e2, d2, c2, i2, n2, l2⟩ :=
    World.assign_spec (fun q => { q with connectedObjectPole := "" }) hy1
  have hx2 : ∃ x2, w2.deref a (some f) = some x2 ∧ x2.name = x.name := by
    rw [d2]
    by_cases hfg : f = g
    · subst hfg
      rw [hx] at hy
      cases hy
      exact ⟨{ x with connectedObject := none, connectedObjectPole := "" }, by simp, rfl⟩
    · rw [if_neg (fun h => hfg h.2), d1, if_neg (fun h => hfg h.2)]
      exact ⟨x, hx, rfl⟩
  obtain ⟨x2, hx2, hx2n⟩ := hx2
  obtain ⟨w3, e3, d3, c3, i3, n3, l3⟩ :=
    World.assign_spec (fun q => { q with connectedObject := none }) hx2
  have hx3 : w3.deref a (some f) = some { x2 with connectedObject := none } := by
    rw [d3]; simp
  obtain ⟨w4, e4, d4, c4, i4, n4, l4⟩ :=
    World.assign_spec (fun q => { q with connectedObjectPole := "" }) hx3
  refine ⟨y, w4, hy, ?_, ?_, ?_, ?_, ?_, ?_⟩
  · have hg1 : w1.getPole a x1.connectedObjectPole = some g := by
      rw [n1 rfl, hx1p, hg]
    simp [disconnect, hf, hx, hl, hg, e1, hx1, hg1, e2, e3, e4]
  · intro c h
    rw [d4]
    by_cases hcf : c = a ∧ h = f
    · rw [if_pos hcf, if_pos hcf]
      simp [hx2n]
    · rw [if_neg hcf, if_neg hcf, d3, if_neg hcf, d2]
      by_cases hcg : c = a ∧ h = g
      · rw [if_pos hcg, if_pos hcg]
      · rw [if_neg hcg, if_neg hcg, d1, if_neg hcg]
  · intro c; rw [c4, c3, c2, c1]
  · intro c i; rw [i4, i3, i2, i1]
  · intro c n; rw [n4 rfl, n3 rfl, n2 rfl, n1 rfl]
  · rw [l4, l3, l2, l1]

theorem connect_inv {w w' : World} {a b : ObjPtr} {p q : String} {r : Bool}
    (h : connect w a p b q = some (r, w')) :
    (p = q ∧ r = false ∧ w' = w) ∨
      (p ≠ q ∧ r = true ∧ ∃ f1 f2, w.getPole a p = some f1 ∧ w.getPole b q = some f2) := by
  by_cases hpq : p = q
  · left
    subst hpq
    simp [connect_val] at h
    exact ⟨rfl, h.1, h.2.symm⟩
  · right
    have hp : ∃ f1, w.getPole a p = some f1 := by
      cases hh : w.getPole a p with
      | none => simp [connect_val, hpq, hh, World.assign] at h
      | some f => exact ⟨f, rfl⟩
    obtain ⟨f1, h1⟩ := hp
    have hq : ∃ f2, w.getPole b q = some f2 := by
      cases hh : w.getPole b q with
      | none =>
        simp only [connect_val, hpq, hh, World.assign, ne_eq, not_false_eq_true, if_true,
          Option.bind_eq_bind, Option.none_bind, Option.bind_none] at h
        simp at h
      | some f => exact ⟨f, rfl⟩
    obtain ⟨f2, h2⟩ := hq
    obtain ⟨_, _, w'', _, _, _, _, hc, _⟩ := connect_spec hpq h1 h2
    rw [hc] at h
    cases h
    exact ⟨hpq, rfl, f1, f2, h1, h2⟩

theorem disconnect_inv {w w' : World} {a : ObjPtr} {p : String} {r : Bool}
    (h : disconnect w a p = some (r, w')) :
    ∃ f x, w.getPole a p = some f ∧ w.deref a (some f) = some x ∧
      ((x.connectedObject = none ∧ r = false ∧ w' = w) ∨
        (x.connectedObject ≠ none ∧ r = true ∧
          ∃ g, w.getPole a x.connectedObjectPole = some g)) := by
  cases hf : w.getPole a p with
  | none => simp [disconnect, hf, World.deref] at h
  | some f =>
    obtain ⟨x, hx, _⟩ := World.getPole_deref hf
    refine ⟨f, x, rfl, hx, ?_⟩
    by_cases hl : x.connectedObject = none
    · left
      simp [disconnect, hf, hx, hl] at h
      exact ⟨hl, h.1, h.2.symm⟩
    · right
      cases hg : w.getPole a x.connectedObjectPole with
      | none => simp [disconnect, hf, hx, hl, hg, World.assign] at h
      | some g =>
        obtain ⟨_, w'', _, hd, _⟩ := disconnect_spec hf hx hl hg
        rw [hd] at h
        cases h
        exact ⟨hl, rfl, g, rfl⟩

theorem disconnect_getElem?_ne {w w' : World} {a : ObjPtr} {p : String} {r : Bool}
    (h : disconnect w a p = some (r, w')) {c : ObjPtr} (hc : c ≠ a) : w'[c]? = w[c]? := by
  simp only [disconnect, Option.bind_eq_bind, Option.bind_eq_some] at h
  obtain ⟨x, _, h⟩ := h
  split_ifs at h
  · simp only [Option.bind_eq_some, Option.pure_def, Option.some.injEq, Prod.mk.injEq] at h
    obtain ⟨_, _, w1, e1, _, _, w2, e2, w3, e3, w4, e4, _, rfl⟩ := h
    rw [World.assign_getElem?_ne e4 hc, World.assign_getElem?_ne e3 hc,
      World.assign_getElem?_ne e2 hc, World.assign_getElem?_ne e1 hc]
  · simp only [Option.pure_def, Option.some.injEq, Prod.mk.injEq] at h
    rw [← h.2]

theorem connect_getElem?_ne {w w' : World} {a b : ObjPtr} {p q : String} {r : Bool}
    (h : connect w a p b q = some (r, w')) {c : ObjPtr} (hca : c ≠ a) (hcb : c ≠ b) :
    w'[c]? = w[c]? := by
  simp only [connect_val] at h
  split_ifs at h
  · simp only [Option.bind_eq_bind, Option.bind_eq_some, Option.pure_def, Option.some.injEq,
      Prod.mk.injEq] at h
    obtain ⟨w1, e1, w2, e2, w3, e3, w4, e4, _, rfl⟩ := h
    rw [World.assign_getElem?_ne e4 hcb, World.assign_getElem?_ne e3 hcb,
      World.assign_getElem?_ne e2 hca, World.assign_getElem?_ne e1 hca]
  · simp only [Option.pure_def, Option.some.injEq, Prod.mk.injEq] at h
    rw [← h.2]

theorem World.deref_congr {w w' : World} {a : ObjPtr} (h : w'[a]? = w[a]?)
    (ptr : Option Field) : w'.deref a ptr = w.deref a ptr := by
  simp [World.deref, h]

theorem isConnectedTo.inner_congr {w w' : World} {a b : ObjPtr} (ha : w'[a]? = w[a]?)
    (hb : w'[b]? = w[b]?) (i : Nat) (js : List Nat) :
    isConnectedTo.inner w' a b i js = isConnectedTo.inner w a b i js := by
  induction js with
  | nil => rfl
  | cons j js ih =>
    simp only [isConnectedTo.inner, World.deref_congr ha, World.deref_congr hb,
      World.getPoleIdx, ha, hb, ih]

theorem isConnectedTo.outer_congr {w w' : World} {a b : ObjPtr} (ha : w'[a]? = w[a]?)
    (hb : w'[b]? = w[b]?) (l : List Nat) :
    isConnectedTo.outer w' a b l = isConnectedTo.outer w a b l := by
  induction l with
  | nil => rfl
  | cons i l ih =>
    simp only [isConnectedTo.outer, World.getPoleCount, hb, isConnectedTo.inner_congr ha hb, ih]

theorem isConnectedTo_congr {w w' : World} {a b : ObjPtr} (ha : w'[a]? = w[a]?)
    (hb : w'[b]? = w[b]?) : isConnectedTo w' a b = isConnectedTo w a b := by
  simp only [isConnectedTo, World.getPoleCount, ha, isConnectedTo.outer_congr ha hb]

theorem not_directLink_of_poles {w : World} {a b : ObjPtr}
    (h : ∀ f x, w.deref a (some f) = some x → x.connectedObject ≠ some b) :
    ¬ DirectLink w a b := by
  rintro ⟨n, m, i, j, x, y, _, _, _, _, _, _, hx, _, hxb, _⟩
  cases hi : w.getPoleIdx a i with
  | none => rw [hi] at hx; simp [World.deref] at hx
  | some f => rw [hi] at hx; exact h f x hx hxb

theorem isConnectedTo_false_of_poles {w : World} {a b : ObjPtr} (ha : a < w.length)
    (hb : b < w.length)
    (h : ∀ f x, w.deref a (some f) = some x → x.connectedObject ≠ some b) :
    isConnectedTo w a b = some false := by
  obtain ⟨r, hr, hiff⟩ := isConnectedTo_spec ha hb
  cases r with
  | false => exact hr
  | true => exact absurd (hiff.mp rfl) (not_directLink_of_poles h)

theorem Object.fresh_load {o : Object} (hf : o.IsFresh) {f : Field} {x : Pole}
    (hx : o.load f = some x) :
    x.connectedObject = none ∧ x.connectedObjectPole = "" ∧ x.name ≠ "" := by
  cases o <;> simp only [Object.IsFresh] at hf <;> rw [hf] at hx <;> cases f <;>
    simp [Object.load, Switch.ctor, Light.ctor, Generator.ctor, Pole.ctor] at hx <;>
    subst hx <;> decide

theorem World.fresh_deref {w : World} (hw : ∀ o ∈ w, o.IsFresh) {a : ObjPtr} {f : Field}
    {x : Pole} (hx : w.deref a (some f) = some x) :
    x.connectedObject = none ∧ x.connectedObjectPole = "" ∧ x.name ≠ "" := by
  obtain ⟨o, ho, hl⟩ := World.deref_some_iff.mp hx
  exact Object.fresh_load (hw o (List.getElem?_mem ho)) hl

theorem World.read_assign {w w' : World} {a : ObjPtr} {f : Field} {x x' : Pole}
    (hx : w.deref a (some f) = some x)
    (hd : ∀ c g, w'.deref c (some g) =
      if c = a ∧ g = f then some x' else w.deref c (some g))
    (hn : x'.name = x.name) (r : StrRef) :
    w'.read r =
      if r = StrRef.linked a f then some x'.connectedObjectPole else w.read r := by
  cases r with
  | val s => simp [World.read]
  | name c g =>
    simp only [World.read, hd, reduceCtorEq, if_false]
    split_ifs with h
    · obtain ⟨rfl, rfl⟩ := h
      simp [hx, hn]
    · rfl
  | linked c g =>
    simp only [World.read, hd, StrRef.linked.injEq]
    split_ifs with h
    · rfl
    · rfl

theorem connect_ref_unfold {w : World} {a b : ObjPtr} {r1 r2 : StrRef} {p q : String}
    {f1 : Field} (hr1 : w.read r1 = some p) (hr2 : w.read r2 = some q) (hpq : p ≠ q)
    (h1 : w.getPole a p = some f1) :
    connect w a r1 b r2 = (do
      let w1 ← w.assign a (some f1) (fun x => { x with connectedObject := some b })
      let w2 ← w1.assign a (some f1) (fun x => { x with connectedObjectPole := q })
      let w3 ← w2.assign b (w.getPole b q) (fun x =>
        { x with connectedObjectPole := if r1 = StrRef.linked a f1 then q else p })
      let w4 ← w3.assign b (w.getPole b q) (fun x => { x with connectedObject := some a })
      pure (true, w4)) := by
  obtain ⟨x, hx, _⟩ := World.getPole_deref h1
  obtain ⟨w1, e1, d1, _⟩ :=
    World.assign_spec (fun x => { x with connectedObject := some b }) hx
  have hx1 : w1.deref a (some f1) = some { x with connectedObject := some b } := by
    rw [d1]; simp
  have hm1 : w1.read r2 = some q := by
    rw [World.read_assign hx d1 rfl r2]
    split_ifs with h
    · rw [h] at hr2
      simpa [World.read, hx] using hr2
    · exact hr2
  have hn1 : w1.read r1 = some p := by
    rw [World.read_assign hx d1 rfl r1]
    split_ifs with h
    · rw [h] at hr1
      simpa [World.read, hx] using hr1
    · exact hr1
  obtain ⟨w2, e2, d2, _⟩ :=
    World.assign_spec (fun x => { x with connectedObjectPole := q }) hx1
  have hn2 : w2.read r1 = some (if r1 = StrRef.linked a f1 then q else p) := by
    rw [World.read_assign hx1 d2 rfl r1]
    split_ifs with h
    · rfl
    · exact hn1
  simp [connect, hr1, hr2, hpq, h1, e1, hm1, e2, hn2]

theorem connect_ref_spec {w : World} {a b : ObjPtr} {r1 r2 : StrRef} {p q : String}
    {f1 f2 : Field} (hr1 : w.read r1 = some p) (hr2 : w.read r2 = some q)
    (hne : p ≠ q) (h1 : w.getPole a p = some f1) (h2 : w.getPole b q = some f2) :
    ∃ x y w', w.deref a (some f1) = some x ∧ w.deref b (some f2) = some y ∧
      x.name = p ∧ y.name = q ∧
      connect w a r1 b r2 = some (true, w') ∧
      (∀ c g, w'.deref c (some g) =
        if c = b ∧ g = f2 then
          some { y with connectedObject := some a,
                        connectedObjectPole := if r1 = StrRef.linked a f1 then q else p }
        else if c = a ∧ g = f1 then
          some { x with connectedObject := some b, connectedObjectPole := q }
        else w.deref c (some g)) ∧
      (∀ c n, w'.getPole c n = w.getPole c n) ∧
      w'.length = w.length := by
  obtain ⟨x, hx, hxn⟩ := World.getPole_deref h1
  obtain ⟨y, hy, hyn⟩ := World.getPole_deref h2
  have hdiff : ¬ (b = a ∧ f2 = f1) := by
    rintro ⟨rfl, rfl⟩
    rw [hx] at hy
    cases hy
    exact hne (hxn.symm.trans hyn)
  obtain ⟨w1, e1, d1, _, _, n1, l1⟩ :=
    World.assign_spec (fun p => { p with connectedObject := some b }) hx
  have hx1 : w1.deref a (some f1) = some { x with connectedObject := some b } := by
    rw [d1]; simp
  obtain ⟨w2, e2, d2, _, _, n2, l2⟩ :=
    World.assign_spec (fun p => { p with connectedObjectPole := q }) hx1
  have hy2 : w2.deref b (some f2) = some y := by
    rw [d2, if_neg hdiff, d1, if_neg hdiff, hy]
  obtain ⟨w3, e3, d3, _, _, n3, l3⟩ :=
    World.assign_spec
      (fun r => { r with connectedObjectPole := if r1 = StrRef.linked a f1 then q else p }) hy2
  have hy3 : w3.deref b (some f2) =
      some { y with connectedObjectPole := if r1 = StrRef.linked a f1 then q else p } := by
    rw [d3]; simp
  obtain ⟨w4, e4, d4, _, _, n4, l4⟩ :=
    World.assign_spec (fun r => { r with connectedObject := some a }) hy3
  refine ⟨x, y, w4, hx, hy, hxn, hyn, ?_, ?_, ?_, ?_⟩
  · rw [connect_ref_unfold hr1 hr2 hne h1]
    simp [h2, e1, e2, e3, e4]
  · intro c g
    rw [d4]
    by_cases hb : c = b ∧ g = f2
    · simp [hb]
    · rw [if_neg hb, if_neg hb, d3, if_neg hb, d2]
      by_cases ha : c = a ∧ g = f1
      · simp [ha]
      · rw [if_neg ha, if_neg ha, d1, if_neg ha]
  · intro c n; rw [n4 rfl, n3 rfl, n2 rfl, n1 rfl]
  · rw [l4, l3, l2, l1]

theorem connect_ref_inv {w w' : World} {a b : ObjPtr} {r1 r2 : StrRef} {r : Bool}
    (h : connect w a r1 b r2 = some (r, w')) :
    ∃ p q, w.read r1 = some p ∧ w.read r2 = some q ∧
      ((p = q ∧ r = false ∧ w' = w) ∨
        (p ≠ q ∧ r = true ∧ ∃ f1 f2, w.getPole a p = some f1 ∧ w.getPole b q = some f2)) := by
  cases hr1 : w.read r1 with
  | none => simp [connect, hr1] at h
  | some p =>
    cases hr2 : w.read r2 with
    | none => simp [connect, hr1, hr2] at h
    | some q =>
      refine ⟨p, q, rfl, rfl, ?_⟩
      by_cases hpq : p = q
      · left
        subst hpq
        simp [connect, hr1, hr2] at h
        exact ⟨rfl, h.1, h.2.symm⟩
      · right
        cases h1 : w.getPole a p with
        | none => simp [connect, hr1, hr2, hpq, h1, World.assign] at h
        | some f1 =>
          cases h2 : w.getPole b q with
          | none =>
            rw [connect_ref_unfold hr1 hr2 hpq h1] at h
            simp only [h2, World.assign, Option.bind_eq_bind, Option.none_bind,
              Option.bind_none] at h
            simp at h
          | some f2 =>
            obtain ⟨_, _, w'', _, _, _, _, hc, _⟩ := connect_ref_spec hr1 hr2 hpq h1 h2
            rw [hc] at h
            cases h
            exact ⟨hpq, rfl, f1, f2, rfl, rfl⟩

theorem connect_preserves_poleInv {w w' : World} {a b : ObjPtr} {r1 r2 : StrRef} {r : Bool}
    (hn : NamesNonEmpty w) (hi : PoleInv w) (hc : connect w a r1 b r2 = some (r, w')) :
    PoleInv w' ∧ NamesNonEmpty w' := by
  obtain ⟨p, q, hr1, hr2, hcase⟩ := connect_ref_inv hc
  rcases hcase with ⟨_, _, rfl⟩ | ⟨hpq, _, f1, f2, h1, h2⟩
  · exact ⟨hi, hn⟩
  · obtain ⟨x, y, w'', hx, hy, hxn, hyn, hc', hd, _⟩ := connect_ref_spec hr1 hr2 hpq h1 h2
    rw [hc'] at hc
    cases hc
    have hp : p ≠ "" := hxn ▸ hn a f1 x hx
    have hq : q ≠ "" := hyn ▸ hn b f2 y hy
    constructor
    · intro c g z hz
      rw [hd] at hz
      split_ifs at hz
      · cases hz; simp [hq]
      · cases hz; simp [hp]
      · cases hz; simp [hq]
      · exact hi c g z hz
    · intro c g z hz
      rw [hd] at hz
      split_ifs at hz
      · cases hz; exact hn b f2 y hy
      · cases hz; exact hn b f2 y hy
      · cases hz; exact hn a f1 x hx
      · exact hn c g z hz

theorem disconnect_preserves_poleInv {w w' : World} {a : ObjPtr} {p : String} {r : Bool}
    (hi : PoleInv w) (hc : disconnect w a p = some (r, w')) :
    PoleInv w' ∧ (NamesNonEmpty w → NamesNonEmpty w') := by
  obtain ⟨f, x, hf, hx, hcase⟩ := disconnect_inv hc
  rcases hcase with ⟨_, _, rfl⟩ | ⟨hl, _, g, hg⟩
  · exact ⟨hi, id⟩
  · obtain ⟨y, w'', hy, hc', hd, _⟩ := disconnect_spec hf hx hl hg
    rw [hc'] at hc
    cases hc
    constructor
    · intro c h z hz
      rw [hd] at hz
      split_ifs at hz
      · cases hz; simp
      · cases hz; simp
      · exact hi c h z hz
    · intro hn c h z hz
      rw [hd] at hz
      split_ifs at hz
      · cases hz; exact hn a f x hx
      · cases hz; exact hn a g y hy
      · exact hn c h z hz

theorem reachable_poleInv {w : World} (h : Reachable w) : PoleInv w ∧ NamesNonEmpty w := by
  induction h with
  | fresh w hw =>
    exact ⟨fun a f x hx => by
        obtain ⟨h1, h2, _⟩ := World.fresh_deref hw hx
        simp [h1, h2],
      fun a f x hx => (World.fresh_deref hw hx).2.2⟩
  | connect w w' a b p q r _ _ _ hc ih => exact connect_preserves_poleInv ih.2 ih.1 hc
  | disconnect w w' a p r _ _ hc ih =>
    exact ⟨(disconnect_preserves_poleInv ih.1 hc).1, (disconnect_preserves_poleInv ih.1 hc).2 ih.2⟩

/-- C3: for all devices `a`, `b` and every string `n`, `a.connect(n, b, n)`
returns false and leaves the world (so every pole of `a` and of `b`) unchanged,
whether or not `a = b` and whether or not a pole named `n` exists on either. -/
theorem connect_equal_names_fails (w : World) (a b : ObjPtr) (n : String) :
    connect w a n b n = some (false, w) := by
  simp [connect_val]

/-- C4: for a device `a` and a pole name `p` that exists on `a` and whose pole
`x` is unlinked (`connectedObject` null), `a.disconnect(p)` returns false and
leaves the world unchanged, so every `isConnectedTo` answer is the same before
and after. -/
theorem disconnect_unlinked_noop (w : World) (a : ObjPtr) (p : String) (x : Pole)
    (hx : w.deref a (w.getPole a p) = some x) (hu : x.connectedObject = none) :
    ∃ w', disconnect w a p = some (false, w') ∧ w' = w ∧
      ∀ c d, isConnectedTo w' c d = isConnectedTo w c d := by
  refine ⟨w, ?_, rfl, fun _ _ => rfl⟩
  simp [disconnect, hx, hu]

/-- Witness for C4, the demo: after `sw.connect("A2", sw2, "A1")`, the call
`sw.disconnect("A1")` returns false and `sw.isConnectedTo(sw2)` stays true. -/
theorem disconnect_unlinked_noop_witness :
    connect demoSwitches 0 "A2" 1 "A1" = some (true, demoSwitchesLinked) ∧
      demoSwitchesLinked.deref 0 (demoSwitchesLinked.getPole 0 "A1") = some (Pole.ctor "A1") ∧
      (Pole.ctor "A1").connectedObject = none ∧
      isConnectedTo demoSwitchesLinked 0 1 = some true ∧
      ∃ w', disconnect demoSwitchesLinked 0 "A1" = some (false, w') ∧ w' = demoSwitchesLinked ∧
        ∀ c d, isConnectedTo w' c d = isConnectedTo demoSwitchesLinked c d :=
  ⟨by decide, by decide, by decide, by decide,
    disconnect_unlinked_noop demoSwitchesLinked 0 "A1" (Pole.ctor "A1") (by decide) (by decide)⟩

/-- C5, the code at the failing input: two fresh switches, `sw.connect("A2",
sw2, "A1")` (the only link between them), then `sw.disconnect("A2")`.  The call
returns true and clears the poles "A1" and "A2" of `sw` itself; the pole "A1"
of `sw2` is untouched, so `sw.isConnectedTo(sw2)` is false but
`sw2.isConnectedTo(sw)` is still true. -/
theorem disconnect_keeps_far_side_link :
    (∀ o ∈ demoSwitches, o.IsFresh) ∧
      connect demoSwitches 0 "A2" 1 "A1" = some (true, demoSwitchesLinked) ∧
      disconnect demoSwitchesLinked 0 "A2" = some (true, demoSwitchesHalfCut) ∧
      demoSwitchesHalfCut.deref 1 (demoSwitchesHalfCut.getPole 1 "A1") =
        some ⟨"A1", some 0, "A2"⟩ ∧
      isConnectedTo demoSwitchesHalfCut 0 1 = some false ∧
      isConnectedTo demoSwitchesHalfCut 1 0 = some true := by
  decide

/-- C6: for devices `a` and `b` in any state, `a.isConnectedTo(b)` returns, and
returns true exactly when some pole of `a` at an index in `1 .. a.getPoleCount()`
has `b` as its connected device and, as its connected pole name, the name of a
pole of `b` at an index in `1 .. b.getPoleCount()`; the call leaves the world as
it was. -/
theorem isConnectedTo_iff_directLink (w : World) (a b : ObjPtr)
    (ha : a < w.length) (hb : b < w.length) :
    ∃ r, isConnectedTo w a b = some r ∧ (r = true ↔ DirectLink w a b) ∧
      Call.run w (Call.isConnectedTo a b) = some (r, w) := by
  obtain ⟨r, hr, hiff⟩ := isConnectedTo_spec ha hb
  exact ⟨r, hr, hiff, by simp [Call.run, hr]⟩

/-- Witness for C6: the two linked switches of the demo. -/
theorem isConnectedTo_iff_directLink_witness :
    0 < demoSwitchesLinked.length ∧ 1 < demoSwitchesLinked.length ∧
      ∃ r, isConnectedTo demoSwitchesLinked 0 1 = some r ∧
        (r = true ↔ DirectLink demoSwitchesLinked 0 1) ∧
        Call.run demoSwitchesLinked (Call.isConnectedTo 0 1) = some (r, demoSwitchesLinked) :=
  ⟨by decide, by decide,
    isConnectedTo_iff_directLink demoSwitchesLinked 0 1 (by decide) (by decide)⟩

/-- C7: for each device variant and every index `i`, lookup by index returns a
pole exactly when `1 ≤ i ≤ getPoleCount()`, the count being 2 for a switch and
a light and 3 for a generator; it returns null for `i = 0` and for every
`i > getPoleCount()`; distinct valid indices give distinct poles. -/
theorem getPoleIdx_consistent_with_count (o : Object) (i : Nat) :
    ((∃ x, o.poleAt i = some x) ↔ 1 ≤ i ∧ i ≤ o.getPoleCount) ∧
      ((o.getPoleIdx i).isSome ↔ 1 ≤ i ∧ i ≤ o.getPoleCount) ∧
      (o.getPoleCount = match o with
        | .switch _ => 2
        | .light _ => 2
        | .generator _ => 3) ∧
      o.getPoleIdx 0 = none ∧
      (o.getPoleCount < i → o.getPoleIdx i = none) ∧
      (∀ j f g, i ≠ j → o.getPoleIdx i = some f → o.getPoleIdx j = some g → f ≠ g) := by
  have hiff : (o.getPoleIdx i).isSome ↔ 1 ≤ i ∧ i ≤ o.getPoleCount := by
    rw [Option.isSome_iff_exists]; exact Object.getPoleIdx_isSome o i
  refine ⟨?_, hiff, ?_, ?_, ?_, ?_⟩
  · rw [← Object.getPoleIdx_isSome o i]
    constructor
    · rintro ⟨x, hx⟩
      simp only [Object.poleAt, Option.bind_eq_some] at hx
      obtain ⟨f, hf, _⟩ := hx
      exact ⟨f, hf⟩
    · rintro ⟨f, hf⟩
      obtain ⟨x, hx⟩ := Object.getPoleIdx_load hf
      exact ⟨x, by simp [Object.poleAt, hf, hx]⟩
  · cases o <;> rfl
  · cases o <;> rfl
  · intro hlt
    cases h : o.getPoleIdx i with
    | none => rfl
    | some f =>
      have := ((Object.getPoleIdx_isSome o i).mp ⟨f, h⟩).2
      omega
  · intro j f g hij hf hg
    exact Object.getPoleIdx_injective hij hf hg

/-- C8: for each device variant and every string `n`, lookup by name returns
the pole at the least index whose name is `n` when some pole has that name, and
null otherwise; on a freshly constructed device it finds a pole exactly for
"A1", "A2" (and "A3" on a generator), the pole at index `i` is named "A" followed
by `i`, and every pole has a null connected device and an empty connected pole
name. -/
theorem getPole_by_name_correct (o : Object) (n : String) :
    (∀ f, o.getPole n = some f →
        ∃ i x, o.getPoleIdx i = some f ∧ o.load f = some x ∧ x.name = n ∧
          ∀ j, j < i → ∀ y, o.poleAt j = some y → y.name ≠ n) ∧
      ((∃ i y, o.poleAt i = some y ∧ y.name = n) → (o.getPole n).isSome) ∧
      (o.getPole n = none ↔ ∀ i y, o.poleAt i = some y → y.name ≠ n) ∧
      (o.IsFresh →
        ((o.getPole n).isSome ↔
          match o with
          | .switch _ => n = "A1" ∨ n = "A2"
          | .light _ => n = "A1" ∨ n = "A2"
          | .generator _ => n = "A1" ∨ n = "A2" ∨ n = "A3") ∧
        ∀ i x, o.poleAt i = some x →
          x.name = "A" ++ toString i ∧ x.connectedObject = none ∧
            x.connectedObjectPole = "") := by
  refine ⟨fun f hf => Object.getPole_least hf, ?_, Object.getPole_none_iff o n, ?_⟩
  · rintro ⟨i, y, hy, hn⟩
    cases h : o.getPole n with
    | none => exact absurd hn ((Object.getPole_none_iff o n).mp h i y hy)
    | some f => rfl
  · intro hf
    exact ⟨Object.fresh_getPole o n hf, fun i x hx => Object.fresh_poleAt hf hx⟩

/-- C10, the code at the failing input: a fresh switch (address 0), light and
generator (address 2); `sw1.connect("A1", generator, "A3")` succeeds, both names
existing on their devices.  Then `sw1.disconnect("A1")`, with "A1" on `sw1`,
looks the reciprocal pole "A3" up on `sw1` itself, gets null and dereferences
it: the call has no result. -/
theorem disconnect_reciprocal_lookup_null :
    (∀ o ∈ demoChain, o.IsFresh) ∧
      (demoChain.getPole 0 "A1").isSome ∧ (demoChain.getPole 2 "A3").isSome ∧
      connect demoChain 0 "A1" 2 "A3" = some (true, demoChainPhase3) ∧
      (demoChainPhase3.getPole 0 "A1").isSome ∧
      demoChainPhase3.deref 0 (demoChainPhase3.getPole 0 "A1") = some ⟨"A1", some 2, "A3"⟩ ∧
      demoChainPhase3.getPole 0 "A3" = none ∧
      (demoChainPhase3.getPole 2 "A3").isSome ∧
      disconnect demoChainPhase3 0 "A1" = none := by
  decide

/-- C11, the code at the failing input: a fresh switch `sw1` (address 0), light
`lamp` (1) and generator (2); `generator.connect("A1", sw1, "A2")` and
`generator.connect("A2", lamp, "A1")`.  Pole "A1" of the generator is then
linked to pole "A2" of `sw1`, and `generator.disconnect("A1")` returns true, but
it clears pole "A2" of the generator itself (which was linked to `lamp`) and
leaves pole "A2" of `sw1` as it was. -/
theorem disconnect_clears_unrelated_pole :
    (∀ o ∈ demoChain, o.IsFresh) ∧
      ((connect demoChain 2 "A1" 0 "A2").bind fun r => connect r.2 2 "A2" 1 "A1") =
        some (true, demoStar) ∧
      demoStar.deref 2 (demoStar.getPole 2 "A1") = some ⟨"A1", some 0, "A2"⟩ ∧
      demoStar.deref 0 (demoStar.getPole 0 "A2") = some ⟨"A2", some 2, "A1"⟩ ∧
      demoStar.deref 2 (demoStar.getPole 2 "A2") = some ⟨"A2", some 1, "A1"⟩ ∧
      disconnect demoStar 2 "A1" = some (true, demoStarCut) ∧
      demoStarCut.deref 2 (demoStarCut.getPole 2 "A2") = some ⟨"A2", none, ""⟩ ∧
      demoStarCut.deref 0 (demoStarCut.getPole 0 "A2") = some ⟨"A2", some 2, "A1"⟩ := by
  decide

/-- C12: if the pole named `p` of device `a` has device `b` as its connected
device, no other pole of `a` has `b` as its connected device, and
`a.disconnect(p)` returns true, then afterwards `a.isConnectedTo(b)` is false. -/
theorem disconnect_then_not_isConnectedTo (w w' : World) (a b : ObjPtr) (p : String)
    (f : Field) (x : Pole) (hb : b < w.length)
    (hf : w.getPole a p = some f) (hx : w.deref a (some f) = some x)
    (_hxb : x.connectedObject = some b)
    (honly : ∀ h z, h ≠ f → w.deref a (some h) = some z → z.connectedObject ≠ some b)
    (hd : disconnect w a p = some (true, w')) :
    isConnectedTo w' a b = some false := by
  obtain ⟨f', x', hf', hx', hcase⟩ := disconnect_inv hd
  rw [hf] at hf'
  cases hf'
  rw [hx] at hx'
  cases hx'
  rcases hcase with ⟨_, hr, _⟩ | ⟨hl, _, g, hg⟩
  · cases hr
  · obtain ⟨y, w'', hy, hd', hder, _, _, _, hlen⟩ := disconnect_spec hf hx hl hg
    rw [hd'] at hd
    cases hd
    obtain ⟨_, _, _, _, _, _, ha⟩ := World.deref_index hx
    refine isConnectedTo_false_of_poles (hlen ▸ ha) (hlen ▸ hb) ?_
    intro h z hz
    rw [hder] at hz
    by_cases h1 : h = f
    · simp [h1] at hz
      subst hz
      simp
    · by_cases h2 : h = g
      · subst h2
        simp [h1] at hz
        subst hz
        simp
      · simp [h1, h2] at hz
        exact honly h z h1 hz

/-- Witness for C12, the demo: after the three `connect` calls,
`generator.disconnect("A1")` returns true and `generator.isConnectedTo(sw1)` is
false. -/
theorem disconnect_then_not_isConnectedTo_witness :
    ((connect demoChain 2 "A1" 0 "A2").bind fun r1 =>
        (connect r1.2 0 "A1" 1 "A2").bind fun r2 => connect r2.2 1 "A2" 2 "A2") =
        some (false, demoChainWired) ∧
      demoChainWired.getPole 2 "A1" = some Field.first ∧
      demoChainWired.deref 2 (some Field.first) = some ⟨"A1", some 0, "A2"⟩ ∧
      disconnect demoChainWired 2 "A1" = some (true, demoChainCut) ∧
      isConnectedTo demoChainCut 2 0 = some false :=
  ⟨by decide, by decide, by decide, by decide,
    disconnect_then_not_isConnectedTo demoChainWired demoChainCut 2 0 "A1" Field.first
      ⟨"A1", some 0, "A2"⟩ (by decide) (by decide) (by decide) rfl
      (by
        intro h z hh hz
        cases h with
        | first => exact absurd rfl hh
        | second =>
          have e : demoChainWired.deref 2 (some Field.second) = some (Pole.ctor "A2") := by
            decide
          rw [e] at hz
          cases hz
          decide
        | third =>
          have e : demoChainWired.deref 2 (some Field.third) = some (Pole.ctor "A3") := by
            decide
          rw [e] at hz
          cases hz
          decide)
      (by decide)⟩

/-- C13: for devices `a`, `X`, `Y` with `X ≠ a` and a call `a.disconnect(p)`
that completes, the call changes no pole of `X` (the device `X` is as before),
and when also `Y ≠ a`, `X.isConnectedTo(Y)` has the same value before and
after. -/
theorem disconnect_frame_other_devices (w w' : World) (a X Y : ObjPtr) (p : String) (r : Bool)
    (hX : X ≠ a) (hd : disconnect w a p = some (r, w')) :
    w'[X]? = w[X]? ∧ (∀ ptr, w'.deref X ptr = w.deref X ptr) ∧
      (Y ≠ a → isConnectedTo w' X Y = isConnectedTo w X Y) := by
  have hXe := disconnect_getElem?_ne hd hX
  exact ⟨hXe, fun ptr => World.deref_congr hXe ptr,
    fun hY => isConnectedTo_congr hXe (disconnect_getElem?_ne hd hY)⟩

/-- Witness for C13, the demo: `sw1.isConnectedTo(lamp)` is true before and
after `generator.disconnect("A1")`. -/
theorem disconnect_frame_other_devices_witness :
    (0 : ObjPtr) ≠ 2 ∧ disconnect demoChainWired 2 "A1" = some (true, demoChainCut) ∧
      isConnectedTo demoChainWired 0 1 = some true ∧
      isConnectedTo demoChainCut 0 1 = some true ∧
      (demoChainCut[(0 : ObjPtr)]? = demoChainWired[(0 : ObjPtr)]? ∧
        (∀ ptr, demoChainCut.deref 0 ptr = demoChainWired.deref 0 ptr) ∧
        ((1 : ObjPtr) ≠ 2 → isConnectedTo demoChainCut 0 1 = isConnectedTo demoChainWired 0 1)) :=
  ⟨by decide, by decide, by decide, by decide,
    disconnect_frame_other_devices demoChainWired demoChainCut 2 0 1 "A1" true (by decide)
      (by decide)⟩

/-- C14: in every state reachable from freshly constructed devices by `connect`
and `disconnect` calls with existing pole names, every pole has a non-empty
name and has its connected device null if and only if its connected pole name
is empty; and each completed `connect` or `disconnect` call from such a state
leaves a state with the same property. -/
theorem reachable_pole_invariant (w : World) (h : Reachable w) :
    PoleInv w ∧ NamesNonEmpty w ∧
      (∀ a b p q r w', connect w a p b q = some (r, w') → PoleInv w') ∧
      (∀ a p r w', disconnect w a p = some (r, w') → PoleInv w') := by
  obtain ⟨hi, hn⟩ := reachable_poleInv h
  exact ⟨hi, hn, fun a b p q r w' hc => (connect_preserves_poleInv hn hi hc).1,
    fun a p r w' hc => (disconnect_preserves_poleInv hi hc).1⟩

/-- Witness for C14: the demo after `sw.connect("A2", sw2, "A1")`. -/
theorem reachable_pole_invariant_witness :
    Reachable demoSwitchesLinked ∧
      (PoleInv demoSwitchesLinked ∧ NamesNonEmpty demoSwitchesLinked ∧
        (∀ a b p q r w', connect demoSwitchesLinked a p b q = some (r, w') → PoleInv w') ∧
        (∀ a p r w', disconnect demoSwitchesLinked a p = some (r, w') → PoleInv w')) :=
  ⟨Reachable.connect demoSwitches demoSwitchesLinked 0 1 "A2" "A1" true
      (Reachable.fresh demoSwitches (by decide)) (by decide) (by decide) (by decide),
    reachable_pole_invariant demoSwitchesLinked
      (Reachable.connect demoSwitches demoSwitchesLinked 0 1 "A2" "A1" true
        (Reachable.fresh demoSwitches (by decide)) (by decide) (by decide) (by decide))⟩

/-- C15, the code at the failing input: two fresh switches,
`sw.connect("A2", sw2, "A1")`, then `sw.disconnect("A2")`, both completed with
existing pole names.  In the state reached, pole "A1" of `sw2` holds
`(sw, "A2")` while pole "A2" of `sw` holds nothing: the link is one-sided. -/
theorem disconnect_breaks_link_symmetry :
    Reachable demoSwitchesHalfCut ∧
      connect demoSwitches 0 "A2" 1 "A1" = some (true, demoSwitchesLinked) ∧
      disconnect demoSwitchesLinked 0 "A2" = some (true, demoSwitchesHalfCut) ∧
      demoSwitchesHalfCut.deref 1 (some Field.first) = some ⟨"A1", some 0, "A2"⟩ ∧
      demoSwitchesHalfCut.deref 0 (demoSwitchesHalfCut.getPole 0 "A2") =
        some ⟨"A2", none, ""⟩ ∧
      ¬ LinkSymmetric demoSwitchesHalfCut := by
  refine ⟨?_, by decide, by decide, by decide, by decide, ?_⟩
  · exact Reachable.disconnect demoSwitchesLinked demoSwitchesHalfCut 0 "A2" true
      (Reachable.connect demoSwitches demoSwitchesLinked 0 1 "A2" "A1" true
        (Reachable.fresh demoSwitches (by decide)) (by decide) (by decide) (by decide))
      (by decide) (by decide)
  · intro hs
    obtain ⟨y, hy, hyd, _⟩ := hs 1 Field.first ⟨"A1", some 0, "A2"⟩ 0 (by decide) rfl
    have e : demoSwitchesHalfCut.deref 0 (demoSwitchesHalfCut.getPole 0 "A2") =
        some ⟨"A2", none, ""⟩ := by decide
    rw [e] at hy
    cases hy
    cases hyd

/-- C16: self-loop disconnect.  If the poles named `p` and `q` of one device `a`
are linked to each other (`p` holds `(a, q)`, `q` holds `(a, p)`), then
`a.disconnect(p)` returns true; afterwards both poles have a null connected
device and an empty connected pole name, every other pole of `a` is unchanged,
and `a.isConnectedTo(a)` is false when no other pole of `a` links to `a`. -/
theorem disconnect_self_loop (w : World) (a : ObjPtr) (p q : String) (f g : Field)
    (x y : Pole)
    (hf : w.getPole a p = some f) (hx : w.deref a (some f) = some x)
    (hg : w.getPole a q = some g) (hy : w.deref a (some g) = some y)
    (hxl : x.connectedObject = some a ∧ x.connectedObjectPole = q)
    (_hyl : y.connectedObject = some a ∧ y.connectedObjectPole = p) :
    ∃ w', disconnect w a p = some (true, w') ∧
      w'.deref a (w'.getPole a p) =
        some { x with connectedObject := none, connectedObjectPole := "" } ∧
      w'.deref a (w'.getPole a q) =
        some { y with connectedObject := none, connectedObjectPole := "" } ∧
      (∀ h, h ≠ f → h ≠ g → w'.deref a (some h) = w.deref a (some h)) ∧
      ((∀ h z, h ≠ f → h ≠ g → w.deref a (some h) = some z → z.connectedObject ≠ some a) →
        isConnectedTo w' a a = some false) := by
  have hl : x.connectedObject ≠ none := by rw [hxl.1]; simp
  have hg' : w.getPole a x.connectedObjectPole = some g := by rw [hxl.2]; exact hg
  obtain ⟨y', w', hy', hd, hder, _, _, hnm, hlen⟩ := disconnect_spec hf hx hl hg'
  rw [hy] at hy'
  cases hy'
  obtain ⟨_, _, _, _, _, _, ha⟩ := World.deref_index hx
  refine ⟨w', hd, ?_, ?_, ?_, ?_⟩
  · rw [hnm, hf, hder]; simp
  · rw [hnm, hg, hder]
    by_cases hgf : g = f
    · subst hgf
      rw [hx] at hy
      cases hy
      simp
    · simp [hgf]
  · intro h h1 h2
    rw [hder]; simp [h1, h2]
  · intro hno
    refine isConnectedTo_false_of_poles (hlen ▸ ha) (hlen ▸ ha) ?_
    intro h z hz
    rw [hder] at hz
    by_cases h1 : h = f
    · simp [h1] at hz
      subst hz
      simp
    · by_cases h2 : h = g
      · subst h2
        simp [h1] at hz
        subst hz
        simp
      · simp [h1, h2] at hz
        exact hno h z h1 h2 hz

/-- Witness for C16: a switch whose "A1" and "A2" are connected to each other;
`sw.disconnect("A1")` gives back the fresh switch. -/
theorem disconnect_self_loop_witness :
    connect loneSwitch 0 "A1" 0 "A2" = some (true, loneSwitchLooped) ∧
      disconnect loneSwitchLooped 0 "A1" = some (true, loneSwitch) ∧
      ∃ w', disconnect loneSwitchLooped 0 "A1" = some (true, w') ∧
        w'.deref 0 (w'.getPole 0 "A1") = some ⟨"A1", none, ""⟩ ∧
        w'.deref 0 (w'.getPole 0 "A2") = some ⟨"A2", none, ""⟩ ∧
        (∀ h, h ≠ Field.first → h ≠ Field.second →
          w'.deref 0 (some h) = loneSwitchLooped.deref 0 (some h)) ∧
        ((∀ h z, h ≠ Field.first → h ≠ Field.second →
            loneSwitchLooped.deref 0 (some h) = some z → z.connectedObject ≠ some 0) →
          isConnectedTo w' 0 0 = some false) :=
  ⟨by decide, by decide,
    disconnect_self_loop loneSwitchLooped 0 "A1" "A2" Field.first Field.second
      ⟨"A1", some 0, "A2"⟩ ⟨"A2", some 0, "A1"⟩ (by decide) (by decide) (by decide)
      (by decide) (by decide) (by decide)⟩

/-- C17: overwrite without clear.  Let the pole named `p` of `a` and the pole
named `r` of `c` be linked to each other (two poles: by the documentation of
`Pole` a pole is connected to another pole), and let `a.connect(p, b, q)`
succeed, the pole named `q` of `b` being a different pole from the pole `r` of
`c`.  Afterwards the pole `r` of `c` still holds `(a, p)` while the pole `p` of
`a` holds `(b, q)` and no longer `(c, r)`. -/
theorem connect_overwrite_leaves_stale (w w' : World) (a b c : ObjPtr) (p q r : String)
    (f1 f2 f3 : Field) (x z : Pole)
    (h1 : w.getPole a p = some f1) (_hx : w.deref a (some f1) = some x)
    (h3 : w.getPole c r = some f3) (hz : w.deref c (some f3) = some z)
    (_hxl : x.connectedObject = some c ∧ x.connectedObjectPole = r)
    (hzl : z.connectedObject = some a ∧ z.connectedObjectPole = p)
    (hca : ¬ (c = a ∧ f3 = f1))
    (h2 : w.getPole b q = some f2) (hcb : ¬ (c = b ∧ f3 = f2))
    (hc : connect w a p b q = some (true, w')) :
    (∃ z', w'.deref c (w'.getPole c r) = some z' ∧ z' = z ∧
        z'.connectedObject = some a ∧ z'.connectedObjectPole = p) ∧
      ∃ x', w'.deref a (w'.getPole a p) = some x' ∧
        x'.connectedObject = some b ∧ x'.connectedObjectPole = q ∧
        ¬ (x'.connectedObject = some c ∧ x'.connectedObjectPole = r) := by
  have hpq : p ≠ q := by
    rcases connect_inv hc with ⟨_, hr, _⟩ | ⟨hpq, _⟩
    · cases hr
    · exact hpq
  obtain ⟨_, _, w2, _, _, hc2, hx', _, _, _⟩ := connect_poles hpq h1 h2
  rw [hc] at hc2
  cases hc2
  obtain ⟨x0, y0, w'', _, _, _, _, hc', hd, _, _, hnm, _⟩ := connect_spec hpq h1 h2
  rw [hc] at hc'
  cases hc'
  constructor
  · refine ⟨z, ?_, rfl, hzl.1, hzl.2⟩
    rw [hnm, h3, hd, if_neg hcb, if_neg hca, hz]
  · refine ⟨{ name := p, connectedObject := some b, connectedObjectPole := q },
      by rw [hnm, h1]; exact hx', rfl, rfl, ?_⟩
    rintro ⟨hbc, hqr⟩
    simp only [Option.some.injEq] at hbc hqr
    subst hbc hqr
    rw [h2] at h3
    cases h3
    exact hcb ⟨rfl, rfl⟩

/-- Witness for C17, on the demo after its three `connect` calls: pole "A2" of
`sw1` and pole "A1" of the generator are linked to each other;
`sw1.connect("A2", lamp, "A1")` succeeds and pole "A1" of the generator still
holds `(sw1, "A2")`. -/
theorem connect_overwrite_leaves_stale_witness :
    demoChainWired.deref 0 (demoChainWired.getPole 0 "A2") = some ⟨"A2", some 2, "A1"⟩ ∧
      demoChainWired.deref 2 (demoChainWired.getPole 2 "A1") = some ⟨"A1", some 0, "A2"⟩ ∧
      connect demoChainWired 0 "A2" 1 "A1" = some (true, demoChainRewired) ∧
      (∃ z', demoChainRewired.deref 2 (demoChainRewired.getPole 2 "A1") = some z' ∧
          z' = ⟨"A1", some 0, "A2"⟩ ∧
          z'.connectedObject = some 0 ∧ z'.connectedObjectPole = "A2") ∧
        ∃ x', demoChainRewired.deref 0 (demoChainRewired.getPole 0 "A2") = some x' ∧
          x'.connectedObject = some 1 ∧ x'.connectedObjectPole = "A1" ∧
          ¬ (x'.connectedObject = some 2 ∧ x'.connectedObjectPole = "A1") :=
  ⟨by decide, by decide, by decide,
    connect_overwrite_leaves_stale demoChainWired demoChainRewired 0 1 2 "A2" "A1" "A1"
      Field.second Field.first Field.first ⟨"A2", some 2, "A1"⟩ ⟨"A1", some 0, "A2"⟩
      (by decide) (by decide) (by decide) (by decide) (by decide) (by decide) (by decide)
      (by decide) (by decide) (by decide)⟩

/-- C18: no transitive reachability.  For three pairwise distinct freshly
constructed devices `a`, `b`, `c` and existing pole names with `p ≠ q` and
`r ≠ s`, after `a.connect(p, b, q)` and `b.connect(r, c, s)` both
`a.isConnectedTo(c)` and `c.isConnectedTo(a)` are false; and for any two
freshly constructed devices `X` and `Y`, `X.isConnectedTo(Y)` is false. -/
theorem no_transitive_isConnectedTo (w : World) (a b c : ObjPtr) (p q r s : String)
    (hw : ∀ o ∈ w, o.IsFresh) (hab : a ≠ b) (hbc : b ≠ c) (hac : a ≠ c)
    (hp : (w.getPole a p).isSome) (hq : (w.getPole b q).isSome)
    (hr : (w.getPole b r).isSome) (hs : (w.getPole c s).isSome)
    (hpq : p ≠ q) (hrs : r ≠ s) :
    (∃ w1 w2, connect w a p b q = some (true, w1) ∧ connect w1 b r c s = some (true, w2) ∧
        isConnectedTo w2 a c = some false ∧ isConnectedTo w2 c a = some false) ∧
      ∀ X Y, X < w.length → Y < w.length → isConnectedTo w X Y = some false := by
  constructor
  · obtain ⟨f1, h1⟩ := Option.isSome_iff_exists.mp hp
    obtain ⟨f2, h2⟩ := Option.isSome_iff_exists.mp hq
    obtain ⟨f3, h3⟩ := Option.isSome_iff_exists.mp hr
    obtain ⟨f4, h4⟩ := Option.isSome_iff_exists.mp hs
    obtain ⟨x1, y1, w1, hx1, _, _, _, hc1, hd1, _, _, hn1, hl1⟩ := connect_spec hpq h1 h2
    have h3' : w1.getPole b r = some f3 := by rw [hn1, h3]
    have h4' : w1.getPole c s = some f4 := by rw [hn1, h4]
    obtain ⟨x2, y2, w2, _, hy2, _, _, hc2, hd2, _, _, _, hl2⟩ := connect_spec hrs h3' h4'
    obtain ⟨_, _, _, _, _, _, ha⟩ := World.deref_index hx1
    obtain ⟨_, _, _, _, _, _, hc⟩ := World.deref_index hy2
    have ha2 : a < w2.length := by rw [hl2, hl1]; exact ha
    have hc2' : c < w2.length := by rw [hl2]; exact hc
    refine ⟨w1, w2, hc1, hc2, isConnectedTo_false_of_poles ha2 hc2' ?_,
      isConnectedTo_false_of_poles hc2' ha2 ?_⟩
    · intro f x hx
      rw [hd2, if_neg (fun h => hac h.1), if_neg (fun h => hab h.1), hd1,
        if_neg (fun h => hab h.1)] at hx
      split_ifs at hx
      · cases hx
        simpa using hbc
      · rw [(World.fresh_deref hw hx).1]
        simp
    · intro f x hx
      rw [hd2] at hx
      split_ifs at hx with hc4 hb3
      · cases hx
        simpa using hab.symm
      · exact absurd hb3.1.symm hbc
      · rw [hd1, if_neg (fun h => hbc h.1.symm), if_neg (fun h => hac h.1.symm)] at hx
        rw [(World.fresh_deref hw hx).1]
        simp
  · intro X Y hX hY
    refine isConnectedTo_false_of_poles hX hY ?_
    intro f x hx
    rw [(World.fresh_deref hw hx).1]
    simp

/-- Witness for C18, the chain of the demo: `generator.connect("A1", sw1, "A2")`
and `sw1.connect("A1", lamp, "A2")` on fresh devices; the generator and the lamp
are not connected, in either direction. -/
theorem no_transitive_isConnectedTo_witness :
    (∀ o ∈ demoChain, o.IsFresh) ∧
      (∃ w1 w2, connect demoChain 2 "A1" 0 "A2" = some (true, w1) ∧
        connect w1 0 "A1" 1 "A2" = some (true, w2) ∧
        isConnectedTo w2 2 1 = some false ∧ isConnectedTo w2 1 2 = some false) ∧
      ∀ X Y, X < demoChain.length → Y < demoChain.length →
        isConnectedTo demoChain X Y = some false :=
  ⟨by decide,
    no_transitive_isConnectedTo demoChain 2 0 1 "A1" "A2" "A1" "A2" (by decide) (by decide)
      (by decide) (by decide) (by decide) (by decide) (by decide) (by decide) (by decide)
      (by decide)⟩

end Electricity
